import Mathlib

/-!
Verification of the Query Memory & Hybrid Retrieval Orchestration Engine
(animal-health RAG stack).

The development shallowly embeds the frontend's citation formatting
(`HomeView.vue`), the feedback client (`ResultActions.vue`), the Vuex store
action (`main.js`), and the SQL schema constraints (`db/*.sql`).  Server-side
operations that are not part of the available sources (the `/api/feedback`
upsert, `DELETE`, the answer synthesizer, the retrieval-evaluation recorder)
are modelled from the specification; each such definition is marked
`Modelled from the spec:` in its doc comment.
-/

/-! ## Citation token scanning (HomeView.vue, formatAnswer)

The consumer rewrites citations with the JavaScript statement
`formattedAnswer.replace(/\[chunk(\d+)\]/g, link-template)`.
We model the global regex replace as a left-to-right scanner over the
character list: at each position it tries to match the literal `[chunk`,
then one or more decimal digits, then `]`; on a match it emits a citation
segment and resumes after the match, otherwise it emits the character as
plain text and advances one position.  This is exactly the semantics of a
global `String.replace` with that regular expression. -/

/-- A segment of the scanned answer: a plain character, or a `[chunkN]`
citation token carrying the digit string `N`. -/
inductive Seg where
  | plain (c : Char)
  | cite (digits : List Char)
  deriving DecidableEq, Repr

/-- Match a literal character sequence at the head of a list, returning the
remainder on success. -/
def matchLit : List Char → List Char → Option (List Char)
  | [], l => some l
  | _ :: _, [] => none
  | p :: ps, c :: cs => if c = p then matchLit ps cs else none

/-- The literal `[chunk` that opens a citation token in the regex
`/\[chunk(\d+)\]/`. -/
def chunkLit : List Char := ['[', 'c', 'h', 'u', 'n', 'k']

/-- Try to match the regex `\[chunk(\d+)\]` at the head of the list.  On
success, return the captured digit string and the remainder after `]`.
`\d+` is greedy, and backtracking cannot help: if the character after the
maximal digit run is not `]` it is also not a digit, so no shorter digit run
is followed by `]` either. -/
def matchCite (l : List Char) : Option (List Char × List Char) :=
  match matchLit chunkLit l with
  | none => none
  | some rest =>
    match rest.dropWhile Char.isDigit with
    | ']' :: tail =>
      if (rest.takeWhile Char.isDigit).isEmpty then none
      else some (rest.takeWhile Char.isDigit, tail)
    | _ => none

/-- Fuel-indexed scanner: with fuel at least the length of the input this is
the global-replace scan of the input.  Structural recursion on the fuel keeps
the definition kernel-reducible. -/
def scanF : Nat → List Char → List Seg
  | 0, _ => []
  | _ + 1, [] => []
  | fuel + 1, c :: rest =>
    match matchCite (c :: rest) with
    | some (ds, tail) => Seg.cite ds :: scanF fuel tail
    | none => Seg.plain c :: scanF fuel rest

/-- Scan an answer string into plain/citation segments. -/
def scanAnswer (s : String) : List Seg := scanF s.data.length s.data

/-- The source text of a citation token: `[chunk` ++ digits ++ `]`. -/
def citeToken (ds : List Char) : List Char := chunkLit ++ ds ++ [']']

/-- Reassemble segments, rendering each citation token's digit string through
`repl` and keeping plain characters unchanged. -/
def renderSegs (repl : List Char → List Char) (segs : List Seg) : List Char :=
  segs.flatMap fun g =>
    match g with
    | Seg.plain c => [c]
    | Seg.cite ds => repl ds

/-- The replacement template of `formatAnswer` (HomeView.vue line 124) with
the capture `$1` substituted: an anchor element whose `href` is `#chunk-$1`,
with the onclick scroll handler, displaying `[chunk$1]`. -/
def anchorRepl (ds : List Char) : List Char :=
  ("<a href=\"#chunk-").data ++ ds ++
  ("\" class=\"chunk-citation-link\" onclick=\"document.getElementById(\x27chunk-").data ++ ds ++
  ("\x27).scrollIntoView(\x7bbehavior: \x27smooth\x27\x7d); return false;\">[chunk").data ++ ds ++
  ("]</a>").data

/-- The citation-rewriting step of `formatAnswer` (HomeView.vue lines
121–126): every `[chunkN]` token is replaced by the anchor template, all
other text is kept.  The preceding `marked(answer)` call is an external
markdown renderer (out of scope per the spec); properties are stated over
its output string, which this function receives. -/
def formatAnswer (s : String) : String :=
  (renderSegs anchorRepl (scanAnswer s)).asString

/-- The digit strings of the citation tokens of an answer, in order: exactly
the tokens that `formatAnswer` turns into citation links. -/
def citeDigits (s : String) : List String :=
  (scanAnswer s).filterMap fun g =>
    match g with
    | Seg.cite ds => some ds.asString
    | Seg.plain _ => none

/-- The anchor ids targeted by the citation links `formatAnswer` emits: the
link for token `[chunkN]` has `href="#chunk-N"`. -/
def linkTargets (s : String) : List String :=
  (citeDigits s).map fun d => "chunk-" ++ d

/-- The chunk anchor ids created by the chunks-section template (HomeView.vue
line 52, `:id` bound to `chunk-` followed by `index + 1`): one anchor per
position `1..n` for `n` rendered chunks. -/
def chunkAnchorIds (n : Nat) : List String :=
  (List.range n).map fun i => "chunk-" ++ toString (i + 1)

/-- Decidable form of the synthesizer citation contract: every citation digit
string of the answer is the canonical decimal rendering of an index in
`1..n`. -/
def citationsValidB (n : Nat) (s : String) : Bool :=
  (citeDigits s).all fun d => (List.range n).any fun i => d == toString (i + 1)

/-- Modelled from the spec: the backend answer synthesizer is not among the
available sources.  Per §4.5, `synthesize` must constrain the generative step
so that emitted `[chunkN]` citations only reference indices present in the
`n`-chunk ordered context (out-of-range citations are stripped or the call
is retried).  We model its guarantee on the produced answer text: every
emitted citation is an index of `1..n` in canonical decimal form. -/
def synthContractOK (n : Nat) (s : String) : Prop := citationsValidB n s = true

/-! ## Feedback model (ResultActions.vue, HomeView.vue, spec §4.6)

A JSON feedback payload field is absent, explicitly `null`, or a value. -/

/-- A field of the `POST /api/feedback` JSON body: omitted from the body,
present with value `null`, or present with a value. -/
inductive FieldReq (α : Type) where
  | absent
  | null
  | val (a : α)
  deriving DecidableEq, Repr

/-- The `POST /api/feedback` request body (§6), minus the mandatory
`memory_id` key which routes the request. -/
structure FeedbackReq where
  rating : FieldReq Nat
  accuracy_rating : FieldReq Nat
  comprehensiveness_rating : FieldReq Nat
  helpfulness_rating : FieldReq Nat
  feedback_text : FieldReq String
  is_favorite : FieldReq Bool
  deriving DecidableEq, Repr

/-- The stored feedback record for one cache entry (§3 Feedback): legacy
rating, three categorical ratings, comment, favorite flag. -/
structure FeedbackRec where
  rating : Option Nat
  accuracy_rating : Option Nat
  comprehensiveness_rating : Option Nat
  helpfulness_rating : Option Nat
  feedback_text : Option String
  is_favorite : Bool
  deriving DecidableEq, Repr

/-- The record with no rating, no comment, and favorite off. -/
def emptyRec : FeedbackRec :=
  { rating := none, accuracy_rating := none, comprehensiveness_rating := none,
    helpfulness_rating := none, feedback_text := none, is_favorite := false }

/-- The request with every field omitted. -/
def emptyReq : FeedbackReq :=
  { rating := FieldReq.absent, accuracy_rating := FieldReq.absent,
    comprehensiveness_rating := FieldReq.absent,
    helpfulness_rating := FieldReq.absent, feedback_text := FieldReq.absent,
    is_favorite := FieldReq.absent }

/-- Merge one optional field per §4.6: an unset (absent) field keeps the
stored value, an explicit `null` clears it, a value overwrites it. -/
def mergeField {α : Type} (old : Option α) : FieldReq α → Option α
  | FieldReq.absent => old
  | FieldReq.null => none
  | FieldReq.val a => some a

/-- Merge the favorite flag (stored as a plain flag, default off). -/
def mergeFav (old : Bool) : FieldReq Bool → Bool
  | FieldReq.absent => old
  | FieldReq.null => false
  | FieldReq.val b => b

/-- Field-wise merge of a request into a stored record. -/
def mergeRec (old : FeedbackRec) (req : FeedbackReq) : FeedbackRec :=
  { rating := mergeField old.rating req.rating,
    accuracy_rating := mergeField old.accuracy_rating req.accuracy_rating,
    comprehensiveness_rating :=
      mergeField old.comprehensiveness_rating req.comprehensiveness_rating,
    helpfulness_rating := mergeField old.helpfulness_rating req.helpfulness_rating,
    feedback_text := mergeField old.feedback_text req.feedback_text,
    is_favorite := mergeFav old.is_favorite req.is_favorite }

/-- A record is empty when no rating is set, no comment is stored, and the
favorite flag is off (§3 Feedback invariant). -/
def isEmptyRec (r : FeedbackRec) : Bool :=
  r.rating = none && r.accuracy_rating = none &&
  r.comprehensiveness_rating = none && r.helpfulness_rating = none &&
  r.feedback_text = none && !r.is_favorite

/-- Modelled from the spec: the server-side `upsertFeedback` handler for
`POST /api/feedback` is not among the available sources.  Per §4.6 it is a
merge — unset fields in the request leave existing stored values unchanged,
explicit clear operations null a specific field — and per §3 a record with
all fields cleared is deleted, not retained empty. -/
def upsertFeedback (stored : Option FeedbackRec) (req : FeedbackReq) :
    Option FeedbackRec :=
  if isEmptyRec (mergeRec (stored.getD emptyRec) req) then none
  else some (mergeRec (stored.getD emptyRec) req)

/-- Modelled from the spec: `DELETE /api/feedback/:id` clears all feedback
fields for the cache entry; the record is removed (§4.6 `clearFeedback`). -/
def deleteFeedback (_stored : Option FeedbackRec) : Option FeedbackRec := none

/-- The `GET /api/feedback/:id` response: the feedback, or a 404-equivalent
when none exists (§6). -/
inductive GetResp where
  | success (feedback : FeedbackRec)
  | notFound
  deriving DecidableEq, Repr

/-- Modelled from the spec: `GET /api/feedback/:id` reports the stored
record when one exists and a 404-equivalent otherwise (§6). -/
def getFeedback : Option FeedbackRec → GetResp
  | some r => GetResp.success r
  | none => GetResp.notFound

/-- The payload sent by `handleRating` (HomeView.vue lines 188–197): the body
carries only `memory_id` and `rating`; every other field is omitted. -/
def handleRatingReq (rating : Nat) : FeedbackReq :=
  { emptyReq with rating := FieldReq.val rating }

/-- The payload sent by `toggleFavorite` (ResultActions.vue lines 301–327):
the body carries only `memory_id` and `is_favorite` set to the negation of
the current flag; every other field is omitted. -/
def toggleFavoriteReq (curFav : Bool) : FeedbackReq :=
  { emptyReq with is_favorite := FieldReq.val (!curFav) }

/-- The feedback form state of the `ResultActions` component (its `data()`
fields driving a submission). -/
structure FormState where
  rating : Nat
  accuracyRating : Nat
  comprehensivenessRating : Nat
  helpfulnessRating : Nat
  feedbackText : String
  isFavorite : Bool
  deriving DecidableEq, Repr

/-- JavaScript `String.prototype.trim`: strip whitespace from both ends of
the string (modelled over the character list, whitespace per
`Char.isWhitespace`). -/
def jsTrim (s : String) : String :=
  (((s.data.dropWhile Char.isWhitespace).reverse.dropWhile
      Char.isWhitespace).reverse).asString

/-- The guard of `submitFeedback` (ResultActions.vue lines 329–334): the
submission is refused when every rating is 0, the trimmed comment is empty,
and the entry is not marked favorite. -/
def submitGuardBlocks (f : FormState) : Bool :=
  f.rating = 0 && f.accuracyRating = 0 && f.comprehensivenessRating = 0 &&
  f.helpfulnessRating = 0 && jsTrim f.feedbackText = "" && !f.isFavorite

/-- The payload built by `submitFeedback` (ResultActions.vue lines 340–354):
each zero rating is sent as an explicit `null`, the comment is sent trimmed
or as `null` when blank, and `is_favorite` is always sent. -/
def submitFeedbackReq (f : FormState) : FeedbackReq :=
  { rating := if f.rating > 0 then FieldReq.val f.rating else FieldReq.null,
    accuracy_rating :=
      if f.accuracyRating > 0 then FieldReq.val f.accuracyRating else FieldReq.null,
    comprehensiveness_rating :=
      if f.comprehensivenessRating > 0 then FieldReq.val f.comprehensivenessRating
      else FieldReq.null,
    helpfulness_rating :=
      if f.helpfulnessRating > 0 then FieldReq.val f.helpfulnessRating
      else FieldReq.null,
    feedback_text :=
      if jsTrim f.feedbackText = "" then FieldReq.null
      else FieldReq.val (jsTrim f.feedbackText),
    is_favorite := FieldReq.val f.isFavorite }

/-- `submitFeedback` (ResultActions.vue lines 329–371): refuse when the guard
fires, otherwise issue the request. -/
def submitFeedbackAction (f : FormState) : Option FeedbackReq :=
  if submitGuardBlocks f then none else some (submitFeedbackReq f)

/-- The user actions that mutate one cache entry's feedback.  Per §3 the
Feedback record is "Mutated by user actions
(create/update/clear-individual-field/clear-all)" only; the client paths
that issue them are `handleRating` (HomeView.vue), `toggleFavorite` and the
guarded `submitFeedback` (ResultActions.vue — clearing an individual field
sets the form field to its empty value and resubmits through the same
guard), and `clearAllFeedback` (the DELETE endpoint). -/
inductive UserAction where
  | rate (rating : Nat)
  | toggleFav (curFav : Bool)
  | submitForm (f : FormState)
  | clearAll
  deriving DecidableEq, Repr

/-- Apply one user action to the stored feedback: each action issues exactly
the request its client path builds (or no request when the submit guard
refuses). -/
def applyUserAction (s : Option FeedbackRec) : UserAction → Option FeedbackRec
  | UserAction.rate rating => upsertFeedback s (handleRatingReq rating)
  | UserAction.toggleFav curFav => upsertFeedback s (toggleFavoriteReq curFav)
  | UserAction.submitForm f =>
    match submitFeedbackAction f with
    | some req => upsertFeedback s req
    | none => s
  | UserAction.clearAll => deleteFeedback s

/-- Run a sequence of user actions from a starting state. -/
def runUserActions (acts : List UserAction) (s : Option FeedbackRec) :
    Option FeedbackRec :=
  acts.foldl applyUserAction s

/-! ## Client component state (ResultActions.vue) for clear-all (C6) -/

/-- The local state of the `ResultActions` component relevant to feedback
(its `data()` fields, ResultActions.vue lines 287–299). -/
structure ClientState where
  showFeedback : Bool
  rating : Nat
  accuracyRating : Nat
  comprehensivenessRating : Nat
  helpfulnessRating : Nat
  feedbackText : String
  isFavorite : Bool
  existingFeedback : Option FeedbackRec
  deriving DecidableEq, Repr

/-- The success branch of `clearAllFeedback` (ResultActions.vue lines
414–446): on a 200 response every local feedback field is reset and the
form is closed. -/
def clearAllSuccess (c : ClientState) : ClientState :=
  { c with existingFeedback := none, rating := 0, accuracyRating := 0,
           comprehensivenessRating := 0, helpfulnessRating := 0,
           feedbackText := "", isFavorite := false, showFeedback := false }

/-! ## retrieval_evaluations schema (db/rollback_migration.sql lines 54–68) -/

/-- A row of the `retrieval_evaluations` table.  Columns as declared:
`id SERIAL PRIMARY KEY`, `query_id`/`chunk_id` foreign keys,
`relevance_score INTEGER CHECK (relevance_score IN (0, 1)) NOT NULL`,
nullable `llm_score NUMERIC`, `explanation TEXT`,
`retrieval_method VARCHAR(50)`, `rank_position INTEGER`, and a creation
timestamp. -/
structure RetrievalEvalRow where
  id : Nat
  query_id : Nat
  chunk_id : Nat
  relevance_score : Nat
  llm_score : Option Int
  explanation : Option String
  retrieval_method : Option String
  rank_position : Option Nat
  created_at : Nat
  deriving DecidableEq, Repr

/-- The only row-level constraint the schema declares beyond keys:
`CHECK (relevance_score IN (0, 1))`. -/
def evalRowCheckOK (r : RetrievalEvalRow) : Bool :=
  r.relevance_score = 0 || r.relevance_score = 1

/-- An `INSERT` into `retrieval_evaluations`: rows violating the `CHECK`
constraint are rejected and the table is unchanged; the schema declares no
`UNIQUE` constraint (the `CREATE INDEX` statements are non-unique), so any
row passing the `CHECK` is appended. -/
def insertEval (t : List RetrievalEvalRow) (r : RetrievalEvalRow) :
    List RetrievalEvalRow :=
  if evalRowCheckOK r then t ++ [r] else t

/-- Build a reachable `retrieval_evaluations` table by inserting the given
rows in order into the empty table. -/
def evalTableOf (rows : List RetrievalEvalRow) : List RetrievalEvalRow :=
  rows.foldl insertEval []

/-- Modelled from the spec: the recorder (`recordRetrievalEvaluation`,
§4.6) is not among the available sources.  Per §3, one evaluation run
appends one row per retrieved chunk with the rank position at retrieval
time; we model a run over the judged list of (chunk id, relevance) pairs,
ranking 1-based in retrieval order, with sequential `SERIAL` ids. -/
def runRows (baseId qid : Nat) (method : String)
    (judged : List (Nat × Nat)) (now : Nat) : List RetrievalEvalRow :=
  (List.range judged.length).map fun i =>
    { id := baseId + i, query_id := qid, chunk_id := (judged.getD i (0, 0)).1,
      relevance_score := (judged.getD i (0, 0)).2, llm_score := none,
      explanation := none, retrieval_method := some method,
      rank_position := some (i + 1), created_at := now }

/-- First example row for the duplicate-rank counterexample: query 1, method
`vector`, rank 1. -/
def dupRow1 : RetrievalEvalRow :=
  { id := 1, query_id := 1, chunk_id := 10, relevance_score := 1,
    llm_score := none, explanation := none,
    retrieval_method := some ("vector"), rank_position := some 1,
    created_at := 100 }

/-- Second example row: same query 1, same method `vector`, same rank 1, a
different chunk from a later evaluation run. -/
def dupRow2 : RetrievalEvalRow :=
  { id := 2, query_id := 1, chunk_id := 11, relevance_score := 0,
    llm_score := none, explanation := none,
    retrieval_method := some ("vector"), rank_position := some 1,
    created_at := 200 }

/-! ## user_feedback rating constraints (db/add_multiple_ratings.sql) -/

/-- A row of the `user_feedback` table restricted to the columns the claims
concern: the cache entry key, the legacy rating, the three categorical
ratings added by `add_multiple_ratings.sql`, the comment, the favorite
flag, and the update timestamp. -/
structure UserFeedbackRow where
  memory_id : Nat
  rating : Option Nat
  accuracy_rating : Option Nat
  comprehensiveness_rating : Option Nat
  helpfulness_rating : Option Nat
  feedback_text : Option String
  is_favorite : Bool
  updated_at : Nat
  deriving DecidableEq, Repr

/-- SQL `CHECK (x BETWEEN 1 AND 5)` semantics for a nullable column: a NULL
value passes the constraint, a stored value must lie in `1..5`. -/
def ratingCheckOK : Option Nat → Bool
  | none => true
  | some v => 1 ≤ v && v ≤ 5

/-- The conjunction of the three `CHECK` constraints declared by
`add_multiple_ratings.sql` on `accuracy_rating`, `comprehensiveness_rating`
and `helpfulness_rating`. -/
def userFeedbackChecksOK (r : UserFeedbackRow) : Bool :=
  ratingCheckOK r.accuracy_rating && ratingCheckOK r.comprehensiveness_rating &&
  ratingCheckOK r.helpfulness_rating

/-- An `INSERT` into `user_feedback`: a row violating a `CHECK` constraint
is rejected synchronously and the table is unchanged. -/
def insertUF (t : List UserFeedbackRow) (r : UserFeedbackRow) :
    List UserFeedbackRow :=
  if userFeedbackChecksOK r then t ++ [r] else t

/-- An `UPDATE` of the `user_feedback` row keyed by `memory_id` to the new
row: if the new row violates a `CHECK` constraint the statement fails and
the table is unchanged, otherwise the keyed row is replaced. -/
def updateUF (t : List UserFeedbackRow) (r : UserFeedbackRow) :
    List UserFeedbackRow :=
  if userFeedbackChecksOK r then
    t.map fun old => if old.memory_id = r.memory_id then r else old
  else t

/-- An operation on the `user_feedback` table. -/
inductive UFOp where
  | ins (r : UserFeedbackRow)
  | upd (r : UserFeedbackRow)
  deriving DecidableEq, Repr

/-- Apply one table operation. -/
def applyUF (t : List UserFeedbackRow) : UFOp → List UserFeedbackRow
  | UFOp.ins r => insertUF t r
  | UFOp.upd r => updateUF t r

/-- Build a reachable `user_feedback` table from the empty table. -/
def runUF (ops : List UFOp) : List UserFeedbackRow :=
  ops.foldl applyUF []

/-! ## Query response model (HomeView.vue, main.js) -/

/-- A retrieved chunk as carried in a `/api/query` response:
`{id, text, similarity}` (§6).  The similarity is a backend float score,
modelled as a rational. -/
structure Chunk where
  id : Nat
  text : String
  similarity : ℚ
  deriving DecidableEq, Repr

/-- An entity as carried in a `/api/query` response:
`{entity, entity_type, relevance}` (§6). -/
structure EntityInfo where
  entity : String
  entity_type : String
  relevance : ℚ
  deriving DecidableEq, Repr

/-- The `/api/query` response body (§6): answer text, cache entry id,
memory flag, chunks, entities, and the references list parallel to the
chunks (each entry a string or null; the whole list may be absent). -/
structure QueryResults where
  answer : String
  memory_id : Int
  from_memory : Bool
  chunks : List Chunk
  entities : List EntityInfo
  references : Option (List (Option String))
  deriving DecidableEq, Repr

/-- `getChunkReference` (HomeView.vue lines 151–156): returns
`results.references[index]` when `results`, `results.references`, and the
indexed entry are all truthy, and `null` otherwise.  A missing entry
(index out of bounds), a `null` entry, and an empty-string entry are all
falsy in JavaScript and yield `null`. -/
def getChunkReference (results : Option QueryResults) (index : Nat) :
    Option String :=
  match results with
  | none => none
  | some r =>
    match r.references with
    | none => none
    | some refs =>
      match refs.getD index none with
      | none => none
      | some s => if s = "" then none else some s

/-- How the chunk-title template renders (HomeView.vue lines 54–63): a
clickable reference when `getChunkReference` yields one, otherwise the
plain `Document excerpt` fallback — never an error.  (The presentational
`formatChunkReference` markup is out of scope per §1; the raw reference is
carried.) -/
inductive ChunkTitleRender where
  | referenceLink (reference : String)
  | documentExcerpt
  deriving DecidableEq, Repr

/-- Render the title of the chunk at 0-based `index`. -/
def renderChunkTitle (results : Option QueryResults) (index : Nat) :
    ChunkTitleRender :=
  match getChunkReference results index with
  | some ref => ChunkTitleRender.referenceLink ref
  | none => ChunkTitleRender.documentExcerpt

/-! ## Vuex store and submitQuery action (main.js) -/

/-- The Vuex store state (main.js lines 9–16). -/
structure StoreState where
  query : String
  results : Option QueryResults
  loading : Bool
  error : Option String
  showIngestionProgress : Bool
  deriving DecidableEq, Repr

/-- The `POST /api/query` request body built by `submitQuery`
(main.js lines 52–56). -/
structure QueryRequest where
  query : String
  max_results : Nat
  use_memory : Bool
  deriving DecidableEq, Repr

/-- The request body `submitQuery` sends for a query string. -/
def submitQueryRequest (q : String) : QueryRequest :=
  { query := q, max_results := 5, use_memory := true }

/-- The outcome of the awaited fetch inside `submitQuery`: a parsed ok
response, a non-ok HTTP status (which the action turns into a thrown
`API error: status`), or an exception thrown by fetch/json with its
message. -/
inductive FetchOutcome where
  | ok (data : QueryResults)
  | httpError (status : Nat)
  | thrown (msg : String)
  deriving DecidableEq, Repr

/-- The store state after the commits that precede the fetch
(main.js lines 43–45): loading set, error cleared, query recorded. -/
def submitQueryPre (s : StoreState) (q : String) : StoreState :=
  { s with loading := true, error := none, query := q }

/-- The `submitQuery` action (main.js lines 41–71) as a state transformer
given the fetch outcome: on success the results are replaced; on a non-ok
status or a thrown error the catch block records the message and the
results are untouched; the finally block always clears the loading flag. -/
def submitQuery (s : StoreState) (q : String) (outcome : FetchOutcome) :
    StoreState :=
  let s1 := submitQueryPre s q
  match outcome with
  | FetchOutcome.ok data => { s1 with results := some data, loading := false }
  | FetchOutcome.httpError status =>
      { s1 with error := some ("API error: " ++ toString status),
                loading := false }
  | FetchOutcome.thrown msg => { s1 with error := some msg, loading := false }

/-! ## Concrete example values used by witnesses -/

/-- Example stored record: a prior comment-only feedback. -/
def goodRec : FeedbackRec := { emptyRec with feedback_text := some ("good") }

/-- Example merged record: rating 4 on top of the prior comment. -/
def goodRatedRec : FeedbackRec :=
  { emptyRec with rating := some 4, feedback_text := some ("good") }

/-- Example stored record with several fields populated. -/
def richRec : FeedbackRec :=
  { rating := some 3, accuracy_rating := some 5,
    comprehensiveness_rating := none, helpfulness_rating := some 2,
    feedback_text := some ("ok"), is_favorite := false }

/-- Example `user_feedback` row respecting all `CHECK` constraints. -/
def ufGoodRow : UserFeedbackRow :=
  { memory_id := 7, rating := some 4, accuracy_rating := some 4,
    comprehensiveness_rating := none, helpfulness_rating := some 5,
    feedback_text := some ("good"), is_favorite := false, updated_at := 10 }

/-- Example `user_feedback` row violating the accuracy `CHECK` (rating 6). -/
def ufBadRow : UserFeedbackRow :=
  { memory_id := 8, rating := none, accuracy_rating := some 6,
    comprehensiveness_rating := none, helpfulness_rating := none,
    feedback_text := none, is_favorite := true, updated_at := 11 }

/-- Example query response with a references list parallel to three chunks:
a real reference, a null entry, and an empty-string entry. -/
def exResults : QueryResults :=
  { answer := "Vaccinate yearly [chunk1].", memory_id := 7, from_memory := false,
    chunks := [{ id := 10, text := "chunk one", similarity := (9 : ℚ) / 10 },
               { id := 11, text := "chunk two", similarity := (4 : ℚ) / 5 },
               { id := 12, text := "chunk three", similarity := (1 : ℚ) / 2 }],
    entities := [],
    references := some [some ("Smith, J. (2020). Cattle health. Vet J."), none,
                        some ("")] }

/-- Example store state holding prior results. -/
def exStore : StoreState :=
  { query := "old query", results := some exResults, loading := false,
    error := none, showIngestionProgress := true }

/-- The form state after `loadExistingFeedback` (ResultActions.vue lines
373–392): stored values are loaded into the form with `x || 0` / `x || ''`
defaulting, so an untouched field is re-sent with its stored value rather
than `null` on the next submit.  The favorite flag is supplied separately —
the loader does not assign it. -/
def loadedForm (stored : FeedbackRec) (fav : Bool) : FormState :=
  { rating := stored.rating.getD 0,
    accuracyRating := stored.accuracy_rating.getD 0,
    comprehensivenessRating := stored.comprehensiveness_rating.getD 0,
    helpfulnessRating := stored.helpfulness_rating.getD 0,
    feedbackText := stored.feedback_text.getD "",
    isFavorite := fav }

/-! ## Scanner lemmas -/

/-- `matchLit` succeeds exactly by consuming the literal. -/
theorem matchLit_sound : ∀ (p l r : List Char), matchLit p l = some r → l = p ++ r := by
  intro p
  induction p with
  | nil =>
    intro l r h
    simp [matchLit] at h
    simp [h]
  | cons a ps ih =>
    intro l r h
    cases l with
    | nil => simp [matchLit] at h
    | cons c cs =>
      simp only [matchLit] at h
      split at h
      · next hc =>
        have := ih cs r h
        simp [hc, this]
      · exact Option.noConfusion h

/-- A successful `matchCite` decomposes the input as the exact citation token
text followed by the remainder, with a nonempty all-digit capture. -/
theorem matchCite_sound {l ds tail : List Char}
    (h : matchCite l = some (ds, tail)) :
    l = citeToken ds ++ tail ∧ ds ≠ [] ∧ ∀ c ∈ ds, c.isDigit = true := by
  unfold matchCite at h
  split at h
  · exact Option.noConfusion h
  · next rest heq =>
    split at h
    · next tail' hdrop =>
      split at h
      · exact Option.noConfusion h
      · next hne =>
        generalize hds : List.takeWhile Char.isDigit rest = ds0 at h hne
        injection h with h'
        injection h' with h1 h2
        subst h1
        subst h2
        have hl : l = chunkLit ++ rest := matchLit_sound _ _ _ heq
        have hrest : ds0 ++ (']' :: tail') = rest := by
          rw [← hds, ← hdrop]
          exact List.takeWhile_append_dropWhile Char.isDigit rest
        refine ⟨?_, ?_, ?_⟩
        · rw [hl, ← hrest]
          simp [citeToken, List.append_assoc]
        · intro hnil
          rw [hnil] at hne
          simp at hne
        · intro c hc
          rw [← hds] at hc
          exact List.mem_takeWhile_imp hc
    · exact Option.noConfusion h

/-- A citation match strictly shrinks the input. -/
theorem matchCite_lt {l ds tail : List Char}
    (h : matchCite l = some (ds, tail)) : tail.length < l.length := by
  have hl := (matchCite_sound h).1
  rw [hl]
  simp [citeToken, chunkLit]
  omega

/-- Reassembling a list as a string is the identity on string data. -/
theorem data_asString (s : String) : s.data.asString = s := by
  cases s
  rfl

/-- With enough fuel, rendering the scan with the original token text
reconstructs the input: the scan partitions the input exactly. -/
theorem renderSegs_citeToken_scanF :
    ∀ (fuel : Nat) (l : List Char), l.length ≤ fuel →
      renderSegs citeToken (scanF fuel l) = l := by
  intro fuel
  induction fuel with
  | zero =>
    intro l hl
    have : l = [] := List.length_eq_zero.mp (Nat.le_zero.mp hl)
    subst this
    rfl
  | succ n ih =>
    intro l hl
    cases l with
    | nil => rfl
    | cons c rest =>
      cases hm : matchCite (c :: rest) with
      | some p =>
        obtain ⟨ds, tail⟩ := p
        have hs := matchCite_sound hm
        have hlt := matchCite_lt hm
        simp only [scanF, hm, renderSegs, List.flatMap_cons]
        have htail : renderSegs citeToken (scanF n tail) = tail := by
          apply ih
          simp only [List.length_cons] at hl hlt
          omega
        unfold renderSegs at htail
        rw [htail]
        exact hs.1.symm
      | none =>
        simp only [scanF, hm, renderSegs, List.flatMap_cons]
        have hrest : renderSegs citeToken (scanF n rest) = rest := by
          apply ih
          simp only [List.length_cons] at hl
          omega
        unfold renderSegs at hrest
        rw [hrest]
        rfl

/-- Every citation segment the scanner emits has a nonempty all-digit
capture. -/
theorem scanF_cite :
    ∀ (fuel : Nat) (l ds : List Char), Seg.cite ds ∈ scanF fuel l →
      ds ≠ [] ∧ ∀ c ∈ ds, c.isDigit = true := by
  intro fuel
  induction fuel with
  | zero =>
    intro l ds h
    simp [scanF] at h
  | succ n ih =>
    intro l ds h
    cases l with
    | nil => simp [scanF] at h
    | cons c rest =>
      cases hm : matchCite (c :: rest) with
      | some p =>
        obtain ⟨ds', tail⟩ := p
        simp only [scanF, hm, List.mem_cons] at h
        rcases h with h | h
        · injection h with h'
          subst h'
          exact ⟨(matchCite_sound hm).2.1, (matchCite_sound hm).2.2⟩
        · exact ih tail ds h
      | none =>
        simp only [scanF, hm, List.mem_cons] at h
        rcases h with h | h
        · exact Seg.noConfusion h
        · exact ih rest ds h

/-- Rendering does not depend on the replacement when no citation segment is
present. -/
theorem renderSegs_congr (r1 r2 : List Char → List Char) :
    ∀ segs : List Seg, (∀ ds, Seg.cite ds ∉ segs) →
      renderSegs r1 segs = renderSegs r2 segs := by
  intro segs
  induction segs with
  | nil => intro _; rfl
  | cons g rest ih =>
    intro h
    cases g with
    | plain c =>
      simp only [renderSegs, List.flatMap_cons]
      have := ih fun ds hm => h ds (List.mem_cons_of_mem _ hm)
      unfold renderSegs at this
      rw [this]
    | cite ds =>
      exact absurd (List.mem_cons_self _ _) (h ds)

/-! ## Claim theorems -/

/-- C1: for every synthesized answer satisfying the synthesizer citation
contract over an assembled context of `n` chunks, every `[chunkN]` token the
consumer turns into a citation link targets a chunk anchor that exists —
the link targets are among the anchor ids `chunk-1 .. chunk-n` created by
the chunks-section template. -/
theorem citation_links_target_existing_anchors (n : Nat) (s : String)
    (h : synthContractOK n s) : ∀ t ∈ linkTargets s, t ∈ chunkAnchorIds n := by
  intro t ht
  simp only [linkTargets, List.mem_map] at ht
  obtain ⟨d, hd, rfl⟩ := ht
  have h' : citationsValidB n s = true := h
  unfold citationsValidB at h'
  rw [List.all_eq_true] at h'
  have hany := h' d hd
  rw [List.any_eq_true] at hany
  obtain ⟨i, hi, heqb⟩ := hany
  rw [List.mem_range] at hi
  have heq : d = toString (i + 1) := eq_of_beq heqb
  subst heq
  simp only [chunkAnchorIds, List.mem_map]
  exact ⟨i, List.mem_range.mpr hi, rfl⟩

/-- Witness for C1 at a concrete two-chunk context and answer. -/
theorem citation_links_target_existing_anchors_witness :
    synthContractOK 2 ("Vaccinate [chunk1] then monitor [chunk2].") ∧
    ("chunk-1") ∈ linkTargets ("Vaccinate [chunk1] then monitor [chunk2].") ∧
    ("chunk-1") ∈ chunkAnchorIds 2 := by
  have hval : citationsValidB 2 ("Vaccinate [chunk1] then monitor [chunk2].") = true := by
    decide
  refine ⟨hval, by decide, ?_⟩
  exact citation_links_target_existing_anchors 2
    ("Vaccinate [chunk1] then monitor [chunk2].") hval ("chunk-1") (by decide)

/-- C2: the consumer-side formatter treats exactly the tokens of the literal
form `[chunkN]` (`N` a nonempty digit string) as citations: the scan
partitions the answer so that reassembling the tokens verbatim restores the
answer, `formatAnswer` is the reassembly that replaces each token by the
anchor link to `#chunk-N`, every scanned token has a nonempty all-digit
capture, and an answer without citation tokens is left entirely
unchanged. -/
theorem formatAnswer_rewrites_exactly_citation_tokens (s : String) :
    (renderSegs citeToken (scanAnswer s)).asString = s ∧
    formatAnswer s = (renderSegs anchorRepl (scanAnswer s)).asString ∧
    (∀ ds, Seg.cite ds ∈ scanAnswer s → ds ≠ [] ∧ ∀ c ∈ ds, c.isDigit = true) ∧
    (citeDigits s = [] → formatAnswer s = s) := by
  have hround : (renderSegs citeToken (scanAnswer s)).asString = s := by
    unfold scanAnswer
    rw [renderSegs_citeToken_scanF s.data.length s.data le_rfl]
    exact data_asString s
  refine ⟨hround, rfl, ?_, ?_⟩
  · intro ds hmem
    exact scanF_cite _ _ ds hmem
  · intro hnil
    have hplain : ∀ ds, Seg.cite ds ∉ scanAnswer s := by
      intro ds hmem
      have hd : ds.asString ∈ citeDigits s := by
        unfold citeDigits
        rw [List.mem_filterMap]
        exact ⟨Seg.cite ds, hmem, rfl⟩
      rw [hnil] at hd
      simp at hd
    have hre : renderSegs anchorRepl (scanAnswer s) =
        renderSegs citeToken (scanAnswer s) :=
      renderSegs_congr anchorRepl citeToken (scanAnswer s) hplain
    unfold formatAnswer
    rw [hre]
    exact hround

/-- Witness for C2: an answer whose bracketed substrings are not of the
`[chunkN]` form is left unchanged. -/
theorem formatAnswer_rewrites_exactly_citation_tokens_witness :
    formatAnswer ("[chunky] text [see 2] and [chunk 3]") =
      ("[chunky] text [see 2] and [chunk 3]") := by
  have hnil : citeDigits ("[chunky] text [see 2] and [chunk 3]") = [] := by
    decide
  exact (formatAnswer_rewrites_exactly_citation_tokens
    ("[chunky] text [see 2] and [chunk 3]")).2.2.2 hnil

/-- A successful upsert returns exactly the field-wise merge. -/
theorem upsertFeedback_some_eq {stored : FeedbackRec} {req : FeedbackReq}
    {r : FeedbackRec} (h : upsertFeedback (some stored) req = some r) :
    r = mergeRec stored req := by
  unfold upsertFeedback at h
  split at h
  · exact Option.noConfusion h
  · injection h with h'
    exact h'.symm

/-- C3: `upsertFeedback` is a merge over the stored feedback record — every
field that is unset (absent) in the request keeps its previously stored
value in the resulting record. -/
theorem upsertFeedback_absent_fields_preserved
    (stored : FeedbackRec) (req : FeedbackReq) (r : FeedbackRec)
    (h : upsertFeedback (some stored) req = some r) :
    (req.rating = FieldReq.absent → r.rating = stored.rating) ∧
    (req.accuracy_rating = FieldReq.absent →
      r.accuracy_rating = stored.accuracy_rating) ∧
    (req.comprehensiveness_rating = FieldReq.absent →
      r.comprehensiveness_rating = stored.comprehensiveness_rating) ∧
    (req.helpfulness_rating = FieldReq.absent →
      r.helpfulness_rating = stored.helpfulness_rating) ∧
    (req.feedback_text = FieldReq.absent →
      r.feedback_text = stored.feedback_text) ∧
    (req.is_favorite = FieldReq.absent →
      r.is_favorite = stored.is_favorite) := by
  have hr : r = mergeRec stored req := upsertFeedback_some_eq h
  subst hr
  refine ⟨?_, ?_, ?_, ?_, ?_, ?_⟩ <;>
    intro ha <;> simp [mergeRec, mergeField, mergeFav, ha]

/-- Witness for C3: the spec fixture — submitting `{memory_id, rating: 4}`
(as the `handleRating` client path sends it, with the unset fields omitted)
after a prior `{feedback_text: "good"}` yields a record with both
`rating = 4` and `feedback_text = "good"`.  The last conjunct covers the
explicit-null payload the `submitFeedback` client path actually sends: the
form is pre-loaded from the stored record, so the comment is re-sent as a
value and the same record results. -/
theorem upsertFeedback_absent_fields_preserved_witness :
    upsertFeedback none
      ({ emptyReq with feedback_text := FieldReq.val ("good") }) = some goodRec ∧
    upsertFeedback (some goodRec) (handleRatingReq 4) = some goodRatedRec ∧
    goodRatedRec.rating = some 4 ∧ goodRatedRec.feedback_text = some ("good") ∧
    goodRatedRec.feedback_text = goodRec.feedback_text ∧
    upsertFeedback (some goodRec)
      (submitFeedbackReq ({ loadedForm goodRec false with rating := 4 })) =
      some goodRatedRec := by
  have h2 : upsertFeedback (some goodRec) (handleRatingReq 4) = some goodRatedRec := by
    decide
  refine ⟨by decide, h2, by decide, by decide, ?_, by decide⟩
  exact (upsertFeedback_absent_fields_preserved goodRec (handleRatingReq 4)
    goodRatedRec h2).2.2.2.2.1 rfl

/-- C4: the favorite-toggle request carries only the new `is_favorite` value
(every other field is omitted from the body), and a successful toggle leaves
the legacy rating, the three categorical ratings, and the comment at their
prior stored values while setting the flag to the negation of the current
one. -/
theorem toggleFavorite_frame_preserving
    (stored : FeedbackRec) (curFav : Bool) (r : FeedbackRec)
    (h : upsertFeedback (some stored) (toggleFavoriteReq curFav) = some r) :
    ((toggleFavoriteReq curFav).rating = FieldReq.absent ∧
     (toggleFavoriteReq curFav).accuracy_rating = FieldReq.absent ∧
     (toggleFavoriteReq curFav).comprehensiveness_rating = FieldReq.absent ∧
     (toggleFavoriteReq curFav).helpfulness_rating = FieldReq.absent ∧
     (toggleFavoriteReq curFav).feedback_text = FieldReq.absent ∧
     (toggleFavoriteReq curFav).is_favorite = FieldReq.val (!curFav)) ∧
    r.rating = stored.rating ∧
    r.accuracy_rating = stored.accuracy_rating ∧
    r.comprehensiveness_rating = stored.comprehensiveness_rating ∧
    r.helpfulness_rating = stored.helpfulness_rating ∧
    r.feedback_text = stored.feedback_text ∧
    r.is_favorite = !curFav := by
  have hr : r = mergeRec stored (toggleFavoriteReq curFav) :=
    upsertFeedback_some_eq h
  subst hr
  refine ⟨⟨rfl, rfl, rfl, rfl, rfl, rfl⟩, ?_, ?_, ?_, ?_, ?_, ?_⟩ <;>
    simp [mergeRec, mergeField, mergeFav, toggleFavoriteReq, emptyReq]

/-- Witness for C4: toggling the favorite on a record with ratings and a
comment leaves all of them in place. -/
theorem toggleFavorite_frame_preserving_witness :
    upsertFeedback (some richRec) (toggleFavoriteReq false) =
      some ({ richRec with is_favorite := true }) ∧
    ({ richRec with is_favorite := true } : FeedbackRec).rating = richRec.rating ∧
    ({ richRec with is_favorite := true } : FeedbackRec).feedback_text =
      richRec.feedback_text := by
  have h : upsertFeedback (some richRec) (toggleFavoriteReq false) =
      some ({ richRec with is_favorite := true }) := by decide
  have hall := toggleFavorite_frame_preserving richRec false
    ({ richRec with is_favorite := true }) h
  exact ⟨h, hall.2.1, hall.2.2.2.2.2.1⟩

/-- Reassembling a character list as a string yields it back as data. -/
theorem asString_data (l : List Char) : (l.asString).data = l := rfl

/-- The head of `dropWhile p` never satisfies `p`. -/
theorem dropWhile_head?_not {p : Char → Bool} :
    ∀ (l : List Char) (c : Char), (l.dropWhile p).head? = some c → p c = false := by
  intro l
  induction l with
  | nil =>
    intro c h
    simp at h
  | cons a as ih =>
    intro c h
    by_cases hp : p a
    · rw [List.dropWhile_cons, if_pos hp] at h
      exact ih c h
    · rw [List.dropWhile_cons, if_neg hp] at h
      simp only [List.head?_cons, Option.some.injEq] at h
      rw [← h]
      exact Bool.eq_false_iff.mpr hp

/-- `dropWhile p` is the identity when the head does not satisfy `p`. -/
theorem dropWhile_eq_self_of_head? {p : Char → Bool} (l : List Char)
    (h : ∀ c, l.head? = some c → p c = false) : l.dropWhile p = l := by
  cases l with
  | nil => rfl
  | cons a as =>
    have ha := h a rfl
    rw [List.dropWhile_cons, if_neg (by simp [ha])]

/-- `dropWhile p l` is a suffix of `l`. -/
theorem dropWhile_append_decomp {p : Char → Bool} :
    ∀ l : List Char, ∃ u, l = u ++ l.dropWhile p := by
  intro l
  induction l with
  | nil => exact ⟨[], rfl⟩
  | cons a as ih =>
    by_cases hp : p a
    · obtain ⟨u, hu⟩ := ih
      refine ⟨a :: u, ?_⟩
      rw [List.dropWhile_cons, if_pos hp, List.cons_append, ← hu]
    · refine ⟨[], ?_⟩
      rw [List.dropWhile_cons, if_neg hp, List.nil_append]

/-- The head of a nonempty left part is the head of the append. -/
theorem head?_append_left (xs ys : List Char) (c : Char)
    (h : xs.head? = some c) : (xs ++ ys).head? = some c := by
  cases xs with
  | nil => simp at h
  | cons a as =>
    simp only [List.head?_cons, Option.some.injEq] at h
    simp [h]

/-- The reversed result of a two-sided `dropWhile` trim has no leading
character satisfying `p`: its head is the head of the first `dropWhile`. -/
theorem dropWhile_reverse_eq {p : Char → Bool} (d : List Char) :
    ((d.dropWhile p).reverse.dropWhile p).reverse.dropWhile p =
      ((d.dropWhile p).reverse.dropWhile p).reverse := by
  apply dropWhile_eq_self_of_head?
  intro c hc
  obtain ⟨u, hu⟩ := dropWhile_append_decomp (p := p) (d.dropWhile p).reverse
  have ha : d.dropWhile p =
      ((d.dropWhile p).reverse.dropWhile p).reverse ++ u.reverse := by
    have hrev := congrArg List.reverse hu
    simpa [List.reverse_append] using hrev
  have hhead : (d.dropWhile p).head? = some c := by
    rw [ha]
    exact head?_append_left _ _ c hc
  exact dropWhile_head?_not d c hhead

/-- JavaScript trim is idempotent: re-trimming a trimmed string changes
nothing. -/
theorem jsTrim_idem (s : String) : jsTrim (jsTrim s) = jsTrim s := by
  unfold jsTrim
  rw [asString_data, dropWhile_reverse_eq, List.reverse_reverse,
    dropWhile_reverse_eq]

/-- A successful upsert (from any starting state) stores exactly the merge,
and the merge is non-empty. -/
theorem upsertFeedback_some_mergeRec {s : Option FeedbackRec}
    {req : FeedbackReq} {r : FeedbackRec}
    (h : upsertFeedback s req = some r) :
    r = mergeRec (s.getD emptyRec) req ∧ isEmptyRec r = false := by
  unfold upsertFeedback at h
  split at h
  · exact Option.noConfusion h
  · next hne =>
    injection h with h'
    refine ⟨h'.symm, ?_⟩
    rw [← h']
    exact Bool.eq_false_iff.mpr hne

/-- A non-empty record with a blank-free comment satisfies the non-empty
disjunction: some rating set, a non-blank comment, or the favorite flag. -/
theorem isEmptyRec_false_disj (r : FeedbackRec)
    (h1 : isEmptyRec r = false)
    (h2 : ∀ t, r.feedback_text = some t → jsTrim t ≠ "") :
    r.rating ≠ none ∨ r.accuracy_rating ≠ none ∨
    r.comprehensiveness_rating ≠ none ∨ r.helpfulness_rating ≠ none ∨
    (∃ t, r.feedback_text = some t ∧ jsTrim t ≠ "") ∨
    r.is_favorite = true := by
  by_cases hrt : r.rating = none
  · by_cases hac : r.accuracy_rating = none
    · by_cases hco : r.comprehensiveness_rating = none
      · by_cases hhe : r.helpfulness_rating = none
        · by_cases hfx : r.feedback_text = none
          · refine Or.inr (Or.inr (Or.inr (Or.inr (Or.inr ?_))))
            unfold isEmptyRec at h1
            simp [hrt, hac, hco, hhe, hfx] at h1
            exact h1
          · obtain ⟨t, ht⟩ := Option.ne_none_iff_exists'.mp hfx
            exact Or.inr (Or.inr (Or.inr (Or.inr (Or.inl ⟨t, ht, h2 t ht⟩))))
        · exact Or.inr (Or.inr (Or.inr (Or.inl hhe)))
      · exact Or.inr (Or.inr (Or.inl hco))
    · exact Or.inr (Or.inl hac)
  · exact Or.inl hrt

/-- Induction invariant over user actions: a reachable stored record is
non-empty and its comment, when set, is non-blank — the rating and toggle
payloads leave the comment untouched, and the submit payload only ever
carries a trimmed nonempty comment (blank comments are sent as null). -/
theorem runUserActions_nonblank :
    ∀ (acts : List UserAction) (s : Option FeedbackRec),
      (∀ r, s = some r → isEmptyRec r = false ∧
        ∀ t, r.feedback_text = some t → jsTrim t ≠ "") →
      ∀ r, runUserActions acts s = some r →
        isEmptyRec r = false ∧ ∀ t, r.feedback_text = some t → jsTrim t ≠ "" := by
  intro acts
  induction acts with
  | nil =>
    intro s hs r h
    exact hs r h
  | cons a rest ih =>
    intro s hs r h
    unfold runUserActions at h
    rw [List.foldl_cons] at h
    refine ih (applyUserAction s a) ?_ r h
    intro r' hr'
    cases a with
    | clearAll => simp [applyUserAction, deleteFeedback] at hr'
    | rate rating =>
      simp only [applyUserAction] at hr'
      obtain ⟨hmr, hne⟩ := upsertFeedback_some_mergeRec hr'
      subst hmr
      refine ⟨hne, ?_⟩
      intro t ht
      simp only [mergeRec, handleRatingReq, emptyReq, mergeField] at ht
      cases s with
      | none => simp [emptyRec] at ht
      | some r0 => exact (hs r0 rfl).2 t (by simpa using ht)
    | toggleFav curFav =>
      simp only [applyUserAction] at hr'
      obtain ⟨hmr, hne⟩ := upsertFeedback_some_mergeRec hr'
      subst hmr
      refine ⟨hne, ?_⟩
      intro t ht
      simp only [mergeRec, toggleFavoriteReq, emptyReq, mergeField] at ht
      cases s with
      | none => simp [emptyRec] at ht
      | some r0 => exact (hs r0 rfl).2 t (by simpa using ht)
    | submitForm f =>
      simp only [applyUserAction] at hr'
      cases hact : submitFeedbackAction f with
      | none =>
        rw [hact] at hr'
        exact hs r' hr'
      | some req =>
        rw [hact] at hr'
        obtain ⟨hmr, hne⟩ := upsertFeedback_some_mergeRec hr'
        subst hmr
        refine ⟨hne, ?_⟩
        intro t ht
        have hreq : req = submitFeedbackReq f := by
          unfold submitFeedbackAction at hact
          split at hact
          · exact Option.noConfusion hact
          · injection hact with h''
            exact h''.symm
        subst hreq
        simp only [mergeRec, submitFeedbackReq] at ht
        by_cases hb : jsTrim f.feedbackText = ""
        · rw [if_pos hb] at ht
          simp [mergeField] at ht
        · rw [if_neg hb] at ht
          simp only [mergeField, Option.some.injEq] at ht
          rw [← ht, jsTrim_idem]
          exact hb

/-- C5: every feedback record that exists — reachable from no-feedback
through the user actions that mutate feedback (§3) — is non-empty: some
rating is set, or the comment is non-blank, or the favorite flag is on.
The submit operation refuses the request when every rating is 0, the
trimmed comment is empty and the entry is not a favorite, and a merge whose
result would be all-cleared deletes the record rather than retaining it
empty. -/
theorem feedback_records_nonempty_invariant
    (acts : List UserAction) (r : FeedbackRec)
    (h : runUserActions acts none = some r) :
    (r.rating ≠ none ∨ r.accuracy_rating ≠ none ∨
     r.comprehensiveness_rating ≠ none ∨ r.helpfulness_rating ≠ none ∨
     (∃ t, r.feedback_text = some t ∧ jsTrim t ≠ "") ∨
     r.is_favorite = true) ∧
    (∀ f : FormState, submitGuardBlocks f = true →
      submitFeedbackAction f = none) ∧
    (∀ (s : Option FeedbackRec) (req : FeedbackReq),
      isEmptyRec (mergeRec (s.getD emptyRec) req) = true →
      upsertFeedback s req = none) := by
  obtain ⟨hne, hbl⟩ := runUserActions_nonblank acts none (by simp) r h
  refine ⟨isEmptyRec_false_disj r hne hbl, ?_, ?_⟩
  · intro f hf
    unfold submitFeedbackAction
    simp [hf]
  · intro s req hE
    unfold upsertFeedback
    simp [hE]

/-- Witness for C5 at a concrete reachable state. -/
theorem feedback_records_nonempty_invariant_witness :
    runUserActions [UserAction.rate 3] none =
      some ({ emptyRec with rating := some 3 }) ∧
    (({ emptyRec with rating := some 3 } : FeedbackRec).rating ≠ none ∨
     ({ emptyRec with rating := some 3 } : FeedbackRec).accuracy_rating ≠ none ∨
     ({ emptyRec with rating := some 3 } : FeedbackRec).comprehensiveness_rating ≠ none ∨
     ({ emptyRec with rating := some 3 } : FeedbackRec).helpfulness_rating ≠ none ∨
     (∃ t, ({ emptyRec with rating := some 3 } : FeedbackRec).feedback_text = some t ∧
       jsTrim t ≠ "") ∨
     ({ emptyRec with rating := some 3 } : FeedbackRec).is_favorite = true) := by
  have h : runUserActions [UserAction.rate 3] none =
      some ({ emptyRec with rating := some 3 }) := by decide
  exact ⟨h, (feedback_records_nonempty_invariant [UserAction.rate 3]
    ({ emptyRec with rating := some 3 }) h).1⟩

/-- C6: clearing feedback removes the record entirely — after the DELETE the
stored state is gone and a GET reports that no feedback exists — and the
component's success branch resets every local feedback field to its empty
initial value. -/
theorem clearFeedback_removes_record_and_resets_client
    (s : Option FeedbackRec) (c : ClientState) :
    deleteFeedback s = none ∧
    getFeedback (deleteFeedback s) = GetResp.notFound ∧
    (clearAllSuccess c).existingFeedback = none ∧
    (clearAllSuccess c).rating = 0 ∧
    (clearAllSuccess c).accuracyRating = 0 ∧
    (clearAllSuccess c).comprehensivenessRating = 0 ∧
    (clearAllSuccess c).helpfulnessRating = 0 ∧
    (clearAllSuccess c).feedbackText = "" ∧
    (clearAllSuccess c).isFavorite = false ∧
    (clearAllSuccess c).showFeedback = false :=
  ⟨rfl, rfl, rfl, rfl, rfl, rfl, rfl, rfl, rfl, rfl⟩

/-- C7 counterexample: the `retrieval_evaluations` schema declares no
uniqueness over (query, method, rank), so two successful inserts produce a
reachable table holding two distinct rows with the same query, the same
retrieval method, and the same rank position — rank position is not unique
per (query, method) over reachable states. -/
theorem rank_position_not_unique_counterexample :
    dupRow1 ∈ evalTableOf [dupRow1, dupRow2] ∧
    dupRow2 ∈ evalTableOf [dupRow1, dupRow2] ∧
    dupRow1 ≠ dupRow2 ∧
    dupRow1.query_id = dupRow2.query_id ∧
    dupRow1.retrieval_method = dupRow2.retrieval_method ∧
    dupRow1.rank_position = dupRow2.rank_position := by
  decide

/-- C7 (amended): within a single evaluation run for one (query, method) —
where the recorder appends one row per retrieved chunk with the 1-based rank
at retrieval time — any two rows with distinct ids carry distinct rank
positions.  Across runs the schema enforces no such uniqueness. -/
theorem rank_position_unique_within_single_run
    (baseId qid : Nat) (method : String) (judged : List (Nat × Nat)) (now : Nat)
    (r1 r2 : RetrievalEvalRow)
    (h1 : r1 ∈ runRows baseId qid method judged now)
    (h2 : r2 ∈ runRows baseId qid method judged now)
    (hne : r1.id ≠ r2.id) : r1.rank_position ≠ r2.rank_position := by
  simp only [runRows, List.mem_map, List.mem_range] at h1 h2
  obtain ⟨i, hi, rfl⟩ := h1
  obtain ⟨j, hj, rfl⟩ := h2
  intro hEq
  apply hne
  simp only [Option.some.injEq] at hEq
  show baseId + i = baseId + j
  omega

/-- Witness for C7's amended statement at a concrete two-chunk run. -/
theorem rank_position_unique_within_single_run_witness :
    ({ id := 5, query_id := 1, chunk_id := 10, relevance_score := 1,
       llm_score := none, explanation := none,
       retrieval_method := some ("vector"), rank_position := some 1,
       created_at := 7 } : RetrievalEvalRow).rank_position ≠
    ({ id := 6, query_id := 1, chunk_id := 11, relevance_score := 0,
       llm_score := none, explanation := none,
       retrieval_method := some ("vector"), rank_position := some 2,
       created_at := 7 } : RetrievalEvalRow).rank_position := by
  exact rank_position_unique_within_single_run 5 1 ("vector")
    [(10, 1), (11, 0)] 7 _ _ (by decide) (by decide) (by decide)

/-- All rows of a reachable `user_feedback` table satisfy the declared
`CHECK` constraints: violating inserts and updates leave the table
unchanged. -/
theorem runUF_checks :
    ∀ (ops : List UFOp) (t : List UserFeedbackRow),
      (∀ r ∈ t, userFeedbackChecksOK r = true) →
      ∀ r ∈ ops.foldl applyUF t, userFeedbackChecksOK r = true := by
  intro ops
  induction ops with
  | nil =>
    intro t ht r hr
    exact ht r hr
  | cons op rest ih =>
    intro t ht r hr
    rw [List.foldl_cons] at hr
    refine ih (applyUF t op) ?_ r hr
    intro r' hr'
    cases op with
    | ins row =>
      simp only [applyUF, insertUF] at hr'
      split at hr'
      · next hok =>
        rcases List.mem_append.mp hr' with hmem | hmem
        · exact ht r' hmem
        · rw [List.mem_singleton.mp hmem]
          exact hok
      · exact ht r' hr'
    | upd row =>
      simp only [applyUF, updateUF] at hr'
      split at hr'
      · next hok =>
        rw [List.mem_map] at hr'
        obtain ⟨old, hold, heq⟩ := hr'
        by_cases hid : old.memory_id = row.memory_id
        · rw [if_pos hid] at heq
          rw [← heq]
          exact hok
        · rw [if_neg hid] at heq
          rw [← heq]
          exact ht old hold
      · exact ht r' hr'

/-- C8: in every reachable `user_feedback` table, each categorical rating
that is set lies in 1..5; an insert or update whose row violates one of the
`CHECK (x BETWEEN 1 AND 5)` constraints fails without changing the table. -/
theorem ratings_range_invariant (ops : List UFOp) (row : UserFeedbackRow)
    (h : row ∈ runUF ops) :
    (∀ v, row.accuracy_rating = some v → 1 ≤ v ∧ v ≤ 5) ∧
    (∀ v, row.comprehensiveness_rating = some v → 1 ≤ v ∧ v ≤ 5) ∧
    (∀ v, row.helpfulness_rating = some v → 1 ≤ v ∧ v ≤ 5) ∧
    (∀ (t : List UserFeedbackRow) (bad : UserFeedbackRow),
      userFeedbackChecksOK bad = false → insertUF t bad = t ∧ updateUF t bad = t) := by
  have hok := runUF_checks ops [] (by simp) row h
  unfold userFeedbackChecksOK at hok
  rw [Bool.and_eq_true, Bool.and_eq_true] at hok
  obtain ⟨⟨hacc, hcom⟩, hhel⟩ := hok
  refine ⟨?_, ?_, ?_, ?_⟩
  · intro v hv
    rw [hv] at hacc
    unfold ratingCheckOK at hacc
    rw [Bool.and_eq_true] at hacc
    exact ⟨of_decide_eq_true hacc.1, of_decide_eq_true hacc.2⟩
  · intro v hv
    rw [hv] at hcom
    unfold ratingCheckOK at hcom
    rw [Bool.and_eq_true] at hcom
    exact ⟨of_decide_eq_true hcom.1, of_decide_eq_true hcom.2⟩
  · intro v hv
    rw [hv] at hhel
    unfold ratingCheckOK at hhel
    rw [Bool.and_eq_true] at hhel
    exact ⟨of_decide_eq_true hhel.1, of_decide_eq_true hhel.2⟩
  · intro t bad hbad
    constructor
    · unfold insertUF
      rw [if_neg (by simp [hbad])]
    · unfold updateUF
      rw [if_neg (by simp [hbad])]

/-- Witness for C8: inserting a valid row and then a row with accuracy
rating 6 leaves only the valid row, whose set ratings are in 1..5. -/
theorem ratings_range_invariant_witness :
    runUF [UFOp.ins ufGoodRow, UFOp.ins ufBadRow] = [ufGoodRow] ∧
    (1 ≤ 4 ∧ 4 ≤ 5) := by
  have h : ufGoodRow ∈ runUF [UFOp.ins ufGoodRow, UFOp.ins ufBadRow] := by decide
  refine ⟨by decide, ?_⟩
  exact (ratings_range_invariant [UFOp.ins ufGoodRow, UFOp.ins ufBadRow]
    ufGoodRow h).1 4 (by decide)

/-- C9: the references list is positionally parallel to the chunks — the
reference the consumer resolves for the chunk at 1-based position `p` is
entry `p - 1` of the references list (filtered through JavaScript
truthiness: a missing, null, or empty-string entry yields no reference),
and a chunk without a reference is rendered with the plain fallback, never
as an error. -/
theorem references_positionally_parallel
    (r : QueryResults) (p : Nat) (hp : 1 ≤ p) :
    getChunkReference (some r) (p - 1) =
      (r.references.bind fun refs => refs.getD (p - 1) none).bind
        (fun str => if str = "" then none else some str) ∧
    (getChunkReference (some r) (p - 1) = none →
      renderChunkTitle (some r) (p - 1) = ChunkTitleRender.documentExcerpt) ∧
    (∀ str, getChunkReference (some r) (p - 1) = some str →
      renderChunkTitle (some r) (p - 1) = ChunkTitleRender.referenceLink str) := by
  refine ⟨?_, ?_, ?_⟩
  · simp only [getChunkReference]
    rcases r.references with _ | refs
    · rfl
    · show (match refs.getD (p - 1) none with
            | none => none
            | some s => if s = "" then none else some s) =
        (refs.getD (p - 1) none).bind fun s => if s = "" then none else some s
      cases refs.getD (p - 1) none <;> rfl
  · intro h
    unfold renderChunkTitle
    rw [h]
  · intro str h
    unfold renderChunkTitle
    rw [h]

/-- Witness for C9 on a concrete response: position 1 resolves the first
reference; position 2 (a null entry) falls back to the plain excerpt. -/
theorem references_positionally_parallel_witness :
    getChunkReference (some exResults) 0 =
      some ("Smith, J. (2020). Cattle health. Vet J.") ∧
    renderChunkTitle (some exResults) 1 = ChunkTitleRender.documentExcerpt ∧
    renderChunkTitle (some exResults) 2 = ChunkTitleRender.documentExcerpt := by
  refine ⟨by decide, ?_, ?_⟩
  · exact (references_positionally_parallel exResults 2 (by decide)).2.1 (by decide)
  · exact (references_positionally_parallel exResults 3 (by decide)).2.1 (by decide)

/-- C10: `submitQuery` always sends exactly
`{query, max_results: 5, use_memory: true}`, first clears the error and
sets the loading flag, leaves prior results untouched with a non-null error
message on any failure, replaces the results with the error still null on
success, and releases the loading flag in every case. -/
theorem submitQuery_atomic_and_releases_loading
    (s : StoreState) (q : String) (outcome : FetchOutcome) :
    (submitQuery s q outcome).loading = false ∧
    (submitQuery s q outcome).query = q ∧
    submitQueryRequest q = { query := q, max_results := 5, use_memory := true } ∧
    (submitQueryPre s q).loading = true ∧
    (submitQueryPre s q).error = none ∧
    (∀ d, outcome = FetchOutcome.ok d →
      (submitQuery s q outcome).results = some d ∧
      (submitQuery s q outcome).error = none) ∧
    (∀ st, outcome = FetchOutcome.httpError st →
      (submitQuery s q outcome).results = s.results ∧
      (submitQuery s q outcome).error = some ("API error: " ++ toString st)) ∧
    (∀ m, outcome = FetchOutcome.thrown m →
      (submitQuery s q outcome).results = s.results ∧
      (submitQuery s q outcome).error = some m) := by
  cases outcome <;>
    simp [submitQuery, submitQueryPre, submitQueryRequest]

/-- Witness for C10: a failed fetch (HTTP 500) leaves the prior results in
place, records the error message, and releases the loading flag. -/
theorem submitQuery_atomic_and_releases_loading_witness :
    (submitQuery exStore ("why vaccinate") (FetchOutcome.httpError 500)).loading
      = false ∧
    (submitQuery exStore ("why vaccinate") (FetchOutcome.httpError 500)).results
      = exStore.results ∧
    (submitQuery exStore ("why vaccinate") (FetchOutcome.httpError 500)).error
      = some ("API error: 500") := by
  have h := submitQuery_atomic_and_releases_loading exStore ("why vaccinate")
    (FetchOutcome.httpError 500)
  have hf := h.2.2.2.2.2.2.1 500 rfl
  exact ⟨h.1, hf.1, hf.2⟩
